import Mathlib

/-!
Verification of the dual-path NIFTI image loader demonstrated in
`notebooks/medical_nifti_image_loading_example.ipynb`.

The notebook's own code is the function `nifti_gpu_load`, which

  * determines the file size (`os.path.getsize`, raising on a missing path),
  * reads the whole file into a device buffer inside a scoped
    `with kvikio.CuFile(filename, "r") as f:` block,
  * parses the first 348 bytes as a NIFTI-1 header,
  * extracts `data_offset`, `shape`, `dtype` and the affine,
  * returns `image[data_offset:].view(dtype).reshape(shape, order="F")`
    together with a metadata dictionary that includes the affine.

The external collaborators (the nibabel header parser, the nibabel
reference loader `nib.load` / `get_fdata`, and the numpy comparison)
are modelled from the specification, which treats them as narrow,
opaque interfaces.  Bytes are natural numbers below 256, a filesystem
is a partial map from paths to byte lists, decoded voxel values are
integers, and the comparison tolerance is a rational.
-/

deriving instance DecidableEq for Except

/-- A filesystem: a partial map from path names to file contents
(byte sequences, each byte a natural number below 256). -/
abbrev FS := String → Option (List Nat)

/-- The error taxonomy of the spec: `IOError` (path missing/unreadable),
`FormatError` (truncated or malformed header, shape/dtype/byte-count
mismatch), `ShapeMismatchError` (comparison of incompatible arrays). -/
inductive LoadError where
  | ioError
  | formatError
  | shapeMismatchError
deriving DecidableEq, Repr

/-- Byte access with default 0, used only after a length check. -/
def byteAt (l : List Nat) (i : Nat) : Nat := l.getD i 0

/-- Little-endian unsigned 32-bit value at offset `off`. -/
def leU32 (l : List Nat) (off : Nat) : Nat :=
  byteAt l off + 256 * byteAt l (off + 1) + 65536 * byteAt l (off + 2)
    + 16777216 * byteAt l (off + 3)

/-- Little-endian signed (two's complement) 32-bit value at offset `off`. -/
def leI32 (l : List Nat) (off : Nat) : Int :=
  let r := leU32 l off
  if r < 2147483648 then (r : Int) else (r : Int) - 4294967296

/-- The element data types the modelled parser recognises:
fixed-width numeric types, as the spec requires. -/
inductive DType where
  | uint8
  | int16
deriving DecidableEq, Repr

/-- Element byte width of a data type. -/
def DType.width : DType → Nat
  | .uint8 => 1
  | .int16 => 2

/-- Decode one element from its (little-endian) byte chunk into an
integer voxel value. -/
def DType.decodeElem : DType → List Nat → Int
  | .uint8, c => (byteAt c 0 : Int)
  | .int16, c =>
    let r := byteAt c 0 + 256 * byteAt c 1
    if r < 32768 then (r : Int) else (r : Int) - 65536

/-- Map a header dtype code to a data type (NIFTI codes: 2 = uint8,
4 = int16); other codes are unsupported. -/
def DType.ofCode : Nat → Option DType
  | 2 => some .uint8
  | 4 => some .int16
  | _ => none

/-- The header fields the loader consumes: data offset, shape
(ordered tuple of positive integers), element data type, the 4×4
affine transform (16 entries, row-major), and the intensity-rescaling
slope/intercept applied by the reference path. -/
structure Nifti1Header where
  data_offset : Nat
  shape : List Nat
  dtype : DType
  affine : List Int
  slope : Int
  inter : Int
deriving DecidableEq, Repr

/-- Modelled from the spec: the external format parser
(`nib.Nifti1Header.from_fileobj` in the notebook), treated as
"given header bytes, returns {data_offset, shape, dtype, affine,
fields}; fails on malformed input".  The concrete fixed layout is
ours; faithful to the spec it is a fixed-size 348-byte header holding
a size/magic word, the number of dimensions, the dimensions, a dtype
code, the data offset, the affine and the rescaling slope/intercept.
Parsing fails on a truncated header (fewer than 348 bytes), a wrong
size word, a dimension count outside 1..7, a zero dimension, or an
unsupported dtype code. -/
def parseHeader (hdr : List Nat) : Except LoadError Nifti1Header :=
  if hdr.length < 348 then .error .formatError
  else if leU32 hdr 0 ≠ 348 then .error .formatError
  else if byteAt hdr 4 = 0 ∨ 7 < byteAt hdr 4 then .error .formatError
  else if ((List.range (byteAt hdr 4)).map (fun i => leU32 hdr (8 + 4 * i))).any (· = 0) then
    .error .formatError
  else
    match DType.ofCode (leU32 hdr 40) with
    | none => .error .formatError
    | some dt =>
      .ok { data_offset := leU32 hdr 44
            shape := (List.range (byteAt hdr 4)).map (fun i => leU32 hdr (8 + 4 * i))
            dtype := dt
            affine := (List.range 16).map (fun i => leI32 hdr (48 + 4 * i))
            slope := leI32 hdr 112
            inter := leI32 hdr 116 }

/-- A decoded voxel array: the shape, and the flat list of element
values in column-major (first-index-fastest) order. -/
structure DecodedImage where
  shape : List Nat
  values : List Int
deriving DecidableEq, Repr

/-- The metadata returned by a load: the raw header fields plus the
affine transform (the notebook's `meta = dict(header);
meta["affine"] = affine`). -/
structure Metadata where
  fields : Nifti1Header
  affine : List Int
deriving DecidableEq, Repr

/-- Array reinterpretation, embedding the notebook's
`payload.view(dtype).reshape(shape, order="F")`: it succeeds exactly
when the payload byte count equals element count × element width
(otherwise numpy/cupy raise), and a Fortran-order reshape of a flat
buffer places consecutive elements at consecutive column-major
positions, so the flat value list is the payload chunked into
elements. -/
def view_as (payload : List Nat) (dt : DType) (shape : List Nat) :
    Except LoadError DecodedImage :=
  if payload.length = dt.width * shape.prod then
    .ok { shape := shape
          values := (List.range shape.prod).map
            (fun i => dt.decodeElem ((payload.drop (dt.width * i)).take dt.width)) }
  else .error .formatError

/-- File-handle events of one load run: the `with kvikio.CuFile` block
opens the handle, reads the whole file, and closes the handle on exit. -/
inductive FileEvent where
  | openHandle
  | readAll
  | closeHandle
deriving DecidableEq, Repr

/-- Net handle-count contribution of one event. -/
def handleDelta : FileEvent → Int
  | .openHandle => 1
  | .closeHandle => -1
  | .readAll => 0

/-- Number of handles still open after a run with the given events. -/
def openHandles (evs : List FileEvent) : Int :=
  (evs.map handleDelta).sum

/-- Embedding of the notebook's `nifti_gpu_load`, together with the
file-handle events it performs.  A missing path makes
`os.path.getsize` raise before any handle is opened; otherwise the
handle is opened, the whole file is read, and the scoped `with` block
closes the handle before the header is parsed, so parse and reshape
failures happen with the handle already closed. -/
def nifti_gpu_load_run (fs : FS) (filename : String) :
    List FileEvent × Except LoadError (DecodedImage × Metadata) :=
  match fs filename with
  | none => ([], .error .ioError)
  | some image =>
    let events := [FileEvent.openHandle, FileEvent.readAll, FileEvent.closeHandle]
    match parseHeader (image.take 348) with
    | .error e => (events, .error e)
    | .ok header =>
      match view_as (image.drop header.data_offset) header.dtype header.shape with
      | .error e => (events, .error e)
      | .ok img =>
        (events, .ok (img, { fields := header, affine := header.affine }))

/-- The accelerated loader: the result component of a load run. -/
def nifti_gpu_load (fs : FS) (filename : String) :
    Except LoadError (DecodedImage × Metadata) :=
  (nifti_gpu_load_run fs filename).2

/-- Modelled from the spec: the reference loader (the external
`nib.load` / `get_fdata` path), which parses the same header and
decodes the same payload but applies the format-defined intensity
rescaling (value ↦ slope · value + intercept), with the same error
taxonomy. -/
def load_reference (fs : FS) (filename : String) :
    Except LoadError (DecodedImage × Metadata) :=
  match fs filename with
  | none => .error .ioError
  | some image =>
    match parseHeader (image.take 348) with
    | .error e => .error e
    | .ok header =>
      match view_as (image.drop header.data_offset) header.dtype header.shape with
      | .error e => .error e
      | .ok img =>
        .ok ({ img with
                values := img.values.map
                  (fun v => header.slope * v + header.inter) },
             { fields := header, affine := header.affine })

/-- Elementwise approximate comparison within an absolute tolerance. -/
def allclose (tol : ℚ) (xs ys : List Int) : Bool :=
  (List.zip xs ys).all (fun p => decide (((|p.1 - p.2| : Int) : ℚ) ≤ tol))

/-- Modelled from the spec: `compare(resultA, resultB, tolerance)`,
which fails with `ShapeMismatchError` when the shapes differ, and
otherwise returns true iff all elements are within tolerance and the
affine transforms are exactly equal. -/
def compareImages (a b : DecodedImage × Metadata) (tol : ℚ) :
    Except LoadError Bool :=
  if a.1.shape ≠ b.1.shape then .error .shapeMismatchError
  else .ok (allclose tol a.1.values b.1.values && decide (a.2.affine = b.2.affine))

/-- Column-major (first-index-fastest) flat position of a
multi-index: index (i₀, i₁, …) in shape (n₀, n₁, …) sits at flat
position i₀ + n₀ · (i₁ + n₁ · …). -/
def fortranIndex : List Nat → List Nat → Nat
  | [], _ => 0
  | _ :: _, [] => 0
  | n :: ns, i :: is => i + n * fortranIndex ns is

/-- Element lookup by multi-index, through the column-major layout. -/
def DecodedImage.atIdx (img : DecodedImage) (idx : List Nat) : Option Int :=
  img.values.get? (fortranIndex img.shape idx)

/-- A multi-index is valid for a shape when it has one entry per
dimension and each entry is below the corresponding extent. -/
def validIdx (shape idx : List Nat) : Prop :=
  idx.length = shape.length ∧ ∀ p ∈ List.zip idx shape, p.1 < p.2

instance (shape idx : List Nat) : Decidable (validIdx shape idx) := by
  unfold validIdx
  infer_instance

/-! ### The synthetic scenario file of the spec

header_len = 348, data_offset = 352, shape = (4,4,4), dtype = int16,
identity affine, no rescaling (slope 1, intercept 0), and a payload of
64 sequential little-endian int16 values; total file length 480. -/

/-- The 128 payload bytes: 64 sequential int16 values 0, 1, …, 63. -/
def synthPayload : List Nat :=
  ((List.range 64).map (fun n => [n % 256, (n / 256) % 256])).flatten

/-- The 64 affine bytes of the identity 4×4 matrix. -/
def synthAffineBytes : List Nat :=
  ((List.range 16).map (fun i => if i % 5 = 0 then [1, 0, 0, 0] else [0, 0, 0, 0])).flatten

/-- The synthetic 480-byte file: 348-byte header, 4 gap bytes, then
the payload. -/
def synthBytes : List Nat :=
  [92, 1, 0, 0, 3, 0, 0, 0] ++
  [4, 0, 0, 0, 4, 0, 0, 0, 4, 0, 0, 0] ++ List.replicate 20 0 ++
  [4, 0, 0, 0] ++
  [96, 1, 0, 0] ++
  synthAffineBytes ++
  [1, 0, 0, 0, 0, 0, 0, 0] ++
  List.replicate 228 0 ++
  [0, 0, 0, 0] ++
  synthPayload

/-- A filesystem holding just the synthetic file. -/
def synthFS : FS := fun p => if p = "synth.nii" then some synthBytes else none

/-- The identity 4×4 affine, row-major. -/
def idAffine : List Int := [1, 0, 0, 0, 0, 1, 0, 0, 0, 0, 1, 0, 0, 0, 0, 1]

/-- The header the synthetic file declares. -/
def synthHeader : Nifti1Header :=
  { data_offset := 352, shape := [4, 4, 4], dtype := .int16,
    affine := idAffine, slope := 1, inter := 0 }

/-- The decoded array the synthetic file holds: 64 sequential values
in column-major order. -/
def synthImg : DecodedImage :=
  { shape := [4, 4, 4], values := (List.range 64).map (fun n => (n : Int)) }

/-- The metadata of the synthetic file. -/
def synthMeta : Metadata := { fields := synthHeader, affine := idAffine }

/-- A malformed variant of the synthetic file: one trailing byte too
many, so the payload no longer matches shape × dtype width. -/
def synthBadBytes : List Nat := synthBytes ++ [0]

/-- A filesystem holding just the malformed file. -/
def synthBadFS : FS := fun p => if p = "bad.nii" then some synthBadBytes else none

/-- A second synthetic file, equal to the first on its 348 header
bytes but different in the gap bytes after the header. -/
def synthBytes2 : List Nat := synthBytes.take 348 ++ [9, 9, 9, 9] ++ synthPayload

/-- A filesystem holding the second synthetic file. -/
def synthFS2 : FS := fun p => if p = "synth2.nii" then some synthBytes2 else none

/-- A ten-byte truncated file and a filesystem holding it. -/
def shortBytes : List Nat := [92, 1, 0, 0, 3, 0, 0, 0, 4, 0]

/-- Filesystem for the truncated file. -/
def shortFS : FS := fun p => if p = "short.nii" then some shortBytes else none

/-! ### Helper lemmas -/

section Helpers

set_option maxRecDepth 10000

/-- Every data type has a positive element width. -/
lemma DType.width_pos (dt : DType) : 0 < dt.width := by
  cases dt <;> simp [DType.width]

/-- A header shorter than 348 bytes is rejected by the parser. -/
lemma parseHeader_short {hdr : List Nat} (h : hdr.length < 348) :
    parseHeader hdr = .error .formatError := by
  unfold parseHeader
  rw [if_pos h]

/-- A successfully parsed header declares only positive dimensions. -/
lemma parseHeader_shape_pos {hdr : List Nat} {header : Nifti1Header}
    (h : parseHeader hdr = .ok header) : ∀ d ∈ header.shape, 0 < d := by
  unfold parseHeader at h
  split at h
  · exact absurd h (by simp)
  split at h
  · exact absurd h (by simp)
  split at h
  · exact absurd h (by simp)
  split at h
  · exact absurd h (by simp)
  next hany =>
    split at h
    · exact absurd h (by simp)
    next dt hdt =>
      cases h
      intro d hd
      simp only [List.any_eq_true, decide_eq_true_eq, not_exists, not_and] at hany
      exact Nat.pos_of_ne_zero (hany d hd)

/-- Inversion principle for `view_as`. -/
lemma view_as_ok_iff {payload : List Nat} {dt : DType} {shape : List Nat}
    {img : DecodedImage} :
    view_as payload dt shape = .ok img ↔
      payload.length = dt.width * shape.prod ∧
      img = { shape := shape
              values := (List.range shape.prod).map
                (fun i => dt.decodeElem ((payload.drop (dt.width * i)).take dt.width)) } := by
  unfold view_as
  split
  next hlen => simp [hlen, eq_comm]
  next hlen => simp [hlen]

/-- Inversion principle for a successful accelerated load. -/
lemma gpu_load_ok_iff {fs : FS} {p : String} {img : DecodedImage} {meta : Metadata} :
    nifti_gpu_load fs p = .ok (img, meta) ↔
      ∃ bytes header, fs p = some bytes ∧
        parseHeader (bytes.take 348) = .ok header ∧
        view_as (bytes.drop header.data_offset) header.dtype header.shape = .ok img ∧
        meta = { fields := header, affine := header.affine } := by
  unfold nifti_gpu_load nifti_gpu_load_run
  constructor
  · intro h
    split at h
    · exact absurd h (by simp)
    next bytes hfs =>
      dsimp only at h
      split at h
      · exact absurd h (by simp)
      next header hparse =>
        split at h
        · exact absurd h (by simp)
        next i hview =>
          simp only [Except.ok.injEq, Prod.mk.injEq] at h
          exact ⟨bytes, header, hfs, hparse, h.1 ▸ hview, h.2.symm⟩
  · rintro ⟨bytes, header, hfs, hparse, hview, hmeta⟩
    rw [hfs]
    dsimp only
    rw [hparse]
    dsimp only
    rw [hview]
    dsimp only
    rw [hmeta]

/-- Inversion principle for a successful reference load. -/
lemma ref_load_ok_iff {fs : FS} {p : String} {img : DecodedImage} {meta : Metadata} :
    load_reference fs p = .ok (img, meta) ↔
      ∃ bytes header rawImg, fs p = some bytes ∧
        parseHeader (bytes.take 348) = .ok header ∧
        view_as (bytes.drop header.data_offset) header.dtype header.shape = .ok rawImg ∧
        img = { rawImg with
                  values := rawImg.values.map (fun v => header.slope * v + header.inter) } ∧
        meta = { fields := header, affine := header.affine } := by
  unfold load_reference
  constructor
  · intro h
    split at h
    · exact absurd h (by simp)
    next bytes hfs =>
      split at h
      · exact absurd h (by simp)
      next header hparse =>
        split at h
        · exact absurd h (by simp)
        next i hview =>
          simp only [Except.ok.injEq, Prod.mk.injEq] at h
          exact ⟨bytes, header, i, hfs, hparse, hview, h.1.symm, h.2.symm⟩
  · rintro ⟨bytes, header, rawImg, hfs, hparse, hview, himg, hmeta⟩
    rw [hfs]
    dsimp only
    rw [hparse]
    dsimp only
    rw [hview]
    dsimp only
    rw [himg, hmeta]

/-- A valid column-major index lands inside the flat value list. -/
lemma fortranIndex_lt_prod :
    ∀ (shape idx : List Nat), idx.length = shape.length →
      (∀ pr ∈ List.zip idx shape, pr.1 < pr.2) →
      fortranIndex shape idx < shape.prod
  | [], [], _, _ => by simp [fortranIndex]
  | [], _ :: _, hlen, _ => by simp at hlen
  | _ :: _, [], hlen, _ => by simp at hlen
  | n :: ns, i :: is, hlen, hbnd => by
    have hi : i < n := hbnd (i, n) (by simp)
    have hrec : fortranIndex ns is < ns.prod := by
      refine fortranIndex_lt_prod ns is ?_ ?_
      · simpa using hlen
      · intro pr hpr
        exact hbnd pr (by simp [hpr])
    calc fortranIndex (n :: ns) (i :: is)
        = i + n * fortranIndex ns is := rfl
      _ < n * (fortranIndex ns is + 1) := by
          have hms : n * (fortranIndex ns is + 1) = n * fortranIndex ns is + n := by ring
          omega
      _ ≤ n * ns.prod := Nat.mul_le_mul_left n hrec
      _ ≤ (n :: ns).prod := by rw [List.prod_cons]

/-- `allclose` holds reflexively at any nonnegative tolerance. -/
lemma allclose_self {tol : ℚ} (h : 0 ≤ tol) (xs : List Int) :
    allclose tol xs xs = true := by
  induction xs with
  | nil => rfl
  | cons x xs ih =>
    unfold allclose at ih ⊢
    simp only [List.zip_cons_cons, List.all_cons, ih, Bool.and_true]
    simp [sub_self, h]

end Helpers

/-! ### Claim theorems -/

set_option maxRecDepth 10000

/-- C1: for every well-formed ImageFile, `load_accelerated` reinterprets the
bytes from `data_offset` onward as an array of the header-declared dtype
reshaped to the header-declared shape in column-major (first-index-fastest)
order: the decoded shape is the header shape, and the element at every valid
multi-index is the dtype-decoded payload chunk at byte offset
width × column-major flat position.  The witness instantiates this on the
synthetic file (header_len 348, data_offset 352, shape (4,4,4), int16,
identity affine, 64 sequential payload values), on which both loaders return
the same column-major contents and the identity affine. -/
theorem gpu_load_column_major (fs : FS) (p : String) (bytes : List Nat)
    (img : DecodedImage) (meta : Metadata)
    (hfs : fs p = some bytes)
    (hload : nifti_gpu_load fs p = .ok (img, meta)) :
    img.shape = meta.fields.shape ∧
    ∀ idx, validIdx img.shape idx →
      img.atIdx idx =
        some (meta.fields.dtype.decodeElem
          (((bytes.drop meta.fields.data_offset).drop
              (meta.fields.dtype.width * fortranIndex img.shape idx)).take
            meta.fields.dtype.width)) := by
  obtain ⟨bytes', header, hfs', hparse, hview, hmeta⟩ := gpu_load_ok_iff.mp hload
  rw [hfs] at hfs'
  injection hfs' with hb
  subst hb
  obtain ⟨hlen, himg⟩ := view_as_ok_iff.mp hview
  subst himg hmeta
  refine ⟨rfl, ?_⟩
  intro idx hvalid
  have hk : fortranIndex header.shape idx < header.shape.prod :=
    fortranIndex_lt_prod header.shape idx hvalid.1 hvalid.2
  unfold DecodedImage.atIdx
  dsimp only
  rw [List.get?_map, List.get?_range hk]
  rfl

/-- C1 witness: the synthetic scenario file.  Both loaders return the same
4×4×4 int16 contents (the 64 sequential values in column-major order) and
the identity affine; the column-major theorem is applied at index (1,2,3),
whose column-major flat position is 57. -/
theorem gpu_load_column_major_witness :
    synthFS "synth.nii" = some synthBytes ∧
    nifti_gpu_load synthFS "synth.nii" = .ok (synthImg, synthMeta) ∧
    load_reference synthFS "synth.nii" = .ok (synthImg, synthMeta) ∧
    synthMeta.affine = idAffine ∧
    synthImg.shape = [4, 4, 4] ∧
    synthImg.values = (List.range 64).map (fun n => (n : Int)) ∧
    validIdx synthImg.shape [1, 2, 3] ∧
    synthImg.atIdx [1, 2, 3] = some 57 := by
  refine ⟨by decide, by decide, by decide, rfl, rfl, rfl, by decide, ?_⟩
  have h := (gpu_load_column_major synthFS "synth.nii" synthBytes synthImg synthMeta
    (by decide) (by decide)).2 [1, 2, 3] (by decide)
  rw [h]
  decide

/-- C2: whenever both loaders succeed on the same file, their results compare
within tolerance 1e-5 when the format applies no intensity rescaling
(slope 1, intercept 0), and the affine transforms are exactly equal
regardless of rescaling. -/
theorem loaders_agree_within_tolerance (fs : FS) (p : String)
    (i1 i2 : DecodedImage) (m1 m2 : Metadata)
    (h1 : nifti_gpu_load fs p = .ok (i1, m1))
    (h2 : load_reference fs p = .ok (i2, m2)) :
    (m1.fields.slope = 1 → m1.fields.inter = 0 →
      compareImages (i1, m1) (i2, m2) (mkRat 1 100000) = .ok true) ∧
    m1.affine = m2.affine := by
  obtain ⟨b1, hd1, hf1, hp1, hv1, hm1⟩ := gpu_load_ok_iff.mp h1
  obtain ⟨b2, hd2, raw, hf2, hp2, hv2, hi2, hm2⟩ := ref_load_ok_iff.mp h2
  rw [hf1] at hf2
  injection hf2 with hb
  subst hb
  rw [hp1] at hp2
  injection hp2 with hh
  subst hh
  rw [hv1] at hv2
  injection hv2 with hr
  subst hr
  subst hm1 hm2 hi2
  refine ⟨?_, rfl⟩
  intro hs hi
  unfold compareImages
  rw [if_neg (by simp)]
  dsimp only at hs hi ⊢
  rw [hs, hi]
  simp [allclose_self (show (0 : ℚ) ≤ mkRat 1 100000 by decide)]

/-- C2 witness: on the synthetic file (slope 1, intercept 0) the two load
results compare within 1e-5 and the affines agree. -/
theorem loaders_agree_within_tolerance_witness :
    compareImages (synthImg, synthMeta) (synthImg, synthMeta) (mkRat 1 100000) = .ok true ∧
    synthMeta.affine = synthMeta.affine := by
  have h := loaders_agree_within_tolerance synthFS "synth.nii" synthImg synthImg
    synthMeta synthMeta (by decide) (by decide)
  exact ⟨h.1 (by decide) (by decide), h.2⟩

/-- C3: comparing two decoded images of different shapes fails with
`ShapeMismatchError`, and in particular never silently returns a boolean. -/
theorem compare_shape_mismatch (a b : DecodedImage) (ma mb : Metadata) (tol : ℚ)
    (h : a.shape ≠ b.shape) :
    compareImages (a, ma) (b, mb) tol = .error .shapeMismatchError ∧
    ∀ r : Bool, compareImages (a, ma) (b, mb) tol ≠ .ok r := by
  have hc : compareImages (a, ma) (b, mb) tol = .error .shapeMismatchError := by
    unfold compareImages
    rw [if_pos h]
  refine ⟨hc, fun r hr => ?_⟩
  rw [hc] at hr
  exact Except.noConfusion hr

/-- C3 witness: a concrete shape-(1) versus shape-(2) comparison fails with
`ShapeMismatchError`. -/
theorem compare_shape_mismatch_witness :
    (⟨[1], [0]⟩ : DecodedImage).shape ≠ (⟨[2], [0, 0]⟩ : DecodedImage).shape ∧
    compareImages (⟨[1], [0]⟩, synthMeta) (⟨[2], [0, 0]⟩, synthMeta) (mkRat 1 100000)
      = .error .shapeMismatchError :=
  ⟨by decide,
   (compare_shape_mismatch ⟨[1], [0]⟩ ⟨[2], [0, 0]⟩ synthMeta synthMeta
     (mkRat 1 100000) (by decide)).1⟩

/-- C4: on a file of at least header length whose header parses but whose
declared shape and dtype do not satisfy
element count × element width = file length − data offset, the accelerated
loader fails with `FormatError` (and, the result being an error, returns no
partial result). -/
theorem gpu_load_byte_count_mismatch (fs : FS) (p : String) (bytes : List Nat)
    (header : Nifti1Header)
    (hfs : fs p = some bytes)
    (hlen : 348 ≤ bytes.length)
    (hparse : parseHeader (bytes.take 348) = .ok header)
    (hmis : (header.shape.prod * header.dtype.width : ℤ)
        ≠ (bytes.length : ℤ) - (header.data_offset : ℤ)) :
    nifti_gpu_load fs p = .error .formatError := by
  unfold nifti_gpu_load nifti_gpu_load_run
  rw [hfs]
  dsimp only
  rw [hparse]
  dsimp only
  have hview : view_as (bytes.drop header.data_offset) header.dtype header.shape
      = .error .formatError := by
    unfold view_as
    rw [if_neg]
    intro hEq
    rw [List.length_drop] at hEq
    by_cases hoff : header.data_offset ≤ bytes.length
    · apply hmis
      have hcast : ((bytes.length - header.data_offset : Nat) : ℤ)
          = (bytes.length : ℤ) - (header.data_offset : ℤ) := Int.ofNat_sub hoff
      rw [← hcast, hEq, Nat.cast_mul]
      ring
    · have h0 : bytes.length - header.data_offset = 0 :=
        Nat.sub_eq_zero_of_le (le_of_lt (not_le.mp hoff))
      rw [h0] at hEq
      have hw : 0 < header.dtype.width := DType.width_pos header.dtype
      have hp : 0 < header.shape.prod := List.prod_pos (parseHeader_shape_pos hparse)
      have := Nat.mul_pos hw hp
      omega
  rw [hview]

/-- C4 witness: the synthetic file with one extra trailing byte parses to the
same header but has 129 payload bytes instead of 64 × 2 = 128, so the
accelerated loader fails with `FormatError`. -/
theorem gpu_load_byte_count_mismatch_witness :
    parseHeader (synthBadBytes.take 348) = .ok synthHeader ∧
    (synthHeader.shape.prod * synthHeader.dtype.width : ℤ)
      ≠ (synthBadBytes.length : ℤ) - (synthHeader.data_offset : ℤ) ∧
    nifti_gpu_load synthBadFS "bad.nii" = .error .formatError :=
  ⟨by decide, by decide,
   gpu_load_byte_count_mismatch synthBadFS "bad.nii" synthBadBytes synthHeader
     (by decide) (by decide) (by decide) (by decide)⟩

/-- C5: on an existing file shorter than the fixed 348-byte header length,
the accelerated loader fails with `FormatError`. -/
theorem gpu_load_truncated_header (fs : FS) (p : String) (bytes : List Nat)
    (hfs : fs p = some bytes) (hlen : bytes.length < 348) :
    nifti_gpu_load fs p = .error .formatError := by
  unfold nifti_gpu_load nifti_gpu_load_run
  rw [hfs]
  dsimp only
  rw [parseHeader_short (by rw [List.length_take]; omega)]

/-- C5 witness: a ten-byte file fails with `FormatError`. -/
theorem gpu_load_truncated_header_witness :
    shortFS "short.nii" = some shortBytes ∧
    shortBytes.length < 348 ∧
    nifti_gpu_load shortFS "short.nii" = .error .formatError :=
  ⟨by decide, by decide,
   gpu_load_truncated_header shortFS "short.nii" shortBytes (by decide) (by decide)⟩

/-- C6: on a path that does not refer to an existing readable file, the
accelerated loader fails with `IOError`. -/
theorem gpu_load_missing_path (fs : FS) (p : String) (hfs : fs p = none) :
    nifti_gpu_load fs p = .error .ioError := by
  unfold nifti_gpu_load nifti_gpu_load_run
  rw [hfs]

/-- C6 witness: loading a name absent from the filesystem fails with
`IOError`. -/
theorem gpu_load_missing_path_witness :
    synthFS "missing.nii" = none ∧
    nifti_gpu_load synthFS "missing.nii" = .error .ioError :=
  ⟨by decide, gpu_load_missing_path synthFS "missing.nii" (by decide)⟩

/-- C7: whenever both loaders succeed on the same file, the decoded images
have identical shape. -/
theorem loaders_same_shape (fs : FS) (p : String)
    (i1 i2 : DecodedImage) (m1 m2 : Metadata)
    (h1 : nifti_gpu_load fs p = .ok (i1, m1))
    (h2 : load_reference fs p = .ok (i2, m2)) :
    i1.shape = i2.shape := by
  obtain ⟨b1, hd1, hf1, hp1, hv1, hm1⟩ := gpu_load_ok_iff.mp h1
  obtain ⟨b2, hd2, raw, hf2, hp2, hv2, hi2, hm2⟩ := ref_load_ok_iff.mp h2
  rw [hf1] at hf2
  injection hf2 with hb
  subst hb
  rw [hp1] at hp2
  injection hp2 with hh
  subst hh
  rw [hv1] at hv2
  injection hv2 with hr
  subst hr
  subst hi2
  rfl

/-- C7 witness: on the synthetic file both loaders return shape (4,4,4). -/
theorem loaders_same_shape_witness : synthImg.shape = synthImg.shape :=
  loaders_same_shape synthFS "synth.nii" synthImg synthImg synthMeta synthMeta
    (by decide) (by decide)

/-- C8: the accelerated loader is pure: two calls on the same unmodified
filesystem and path yield equal decoded contents and equal metadata. -/
theorem gpu_load_idempotent (fs : FS) (p : String)
    (i1 i2 : DecodedImage) (m1 m2 : Metadata)
    (h1 : nifti_gpu_load fs p = .ok (i1, m1))
    (h2 : nifti_gpu_load fs p = .ok (i2, m2)) :
    i1 = i2 ∧ m1 = m2 := by
  rw [h1] at h2
  injection h2 with h
  exact ⟨congrArg Prod.fst h, congrArg Prod.snd h⟩

/-- C8 witness: two loads of the synthetic file yield equal results. -/
theorem gpu_load_idempotent_witness : synthImg = synthImg ∧ synthMeta = synthMeta :=
  gpu_load_idempotent synthFS "synth.nii" synthImg synthImg synthMeta synthMeta
    (by decide) (by decide)

/-- C9: on every exit path of the accelerated loader — the missing-path exit,
a parse failure, a reshape failure, or success — the file-handle events are
either empty (the loader failed before opening) or exactly
open–read–close, and no handle is left open at exit. -/
theorem gpu_load_releases_handle (fs : FS) (p : String) :
    ((nifti_gpu_load_run fs p).1 = [] ∨
      (nifti_gpu_load_run fs p).1 =
        [FileEvent.openHandle, FileEvent.readAll, FileEvent.closeHandle]) ∧
    openHandles (nifti_gpu_load_run fs p).1 = 0 := by
  unfold nifti_gpu_load_run
  cases hfs : fs p with
  | none => exact ⟨Or.inl rfl, rfl⟩
  | some bytes =>
    dsimp only
    cases hp : parseHeader (bytes.take 348) with
    | error e => exact ⟨Or.inr rfl, rfl⟩
    | ok header =>
      dsimp only
      cases hv : view_as (bytes.drop header.data_offset) header.dtype header.shape with
      | error e => exact ⟨Or.inr rfl, rfl⟩
      | ok img => exact ⟨Or.inr rfl, rfl⟩

/-- C9 witness: on the synthetic file the handle count at exit is zero. -/
theorem gpu_load_releases_handle_witness :
    openHandles (nifti_gpu_load_run synthFS "synth.nii").1 = 0 :=
  (gpu_load_releases_handle synthFS "synth.nii").2

/-- C10: the metadata returned by the accelerated loader depends only on the
first 348 bytes of the file: two readable files agreeing on their first 348
bytes that both load successfully yield identical metadata, whatever their
remaining bytes. -/
theorem metadata_header_only (fs1 fs2 : FS) (p1 p2 : String)
    (b1 b2 : List Nat) (i1 i2 : DecodedImage) (m1 m2 : Metadata)
    (hf1 : fs1 p1 = some b1) (hf2 : fs2 p2 = some b2)
    (hpre : b1.take 348 = b2.take 348)
    (h1 : nifti_gpu_load fs1 p1 = .ok (i1, m1))
    (h2 : nifti_gpu_load fs2 p2 = .ok (i2, m2)) :
    m1 = m2 := by
  obtain ⟨c1, hd1, hc1, hp1, hv1, hm1⟩ := gpu_load_ok_iff.mp h1
  obtain ⟨c2, hd2, hc2, hp2, hv2, hm2⟩ := gpu_load_ok_iff.mp h2
  rw [hf1] at hc1
  injection hc1 with he1
  subst he1
  rw [hf2] at hc2
  injection hc2 with he2
  subst he2
  rw [hpre, hp2] at hp1
  injection hp1 with hh
  subst hh
  rw [hm1, hm2]

/-- C10 witness: the two synthetic files agree on their 348 header bytes,
differ in their gap bytes, and yield identical metadata. -/
theorem metadata_header_only_witness :
    synthBytes.take 348 = synthBytes2.take 348 ∧
    synthBytes ≠ synthBytes2 ∧
    synthMeta = synthMeta :=
  ⟨by decide, by decide,
   metadata_header_only synthFS synthFS2 "synth.nii" "synth2.nii"
     synthBytes synthBytes2 synthImg synthImg synthMeta synthMeta
     (by decide) (by decide) (by decide) (by decide) (by decide)⟩
